import Mathlib

/-
Verification of the streamix file-streaming server (src/streamix.cpp).

Shallow embedding:
- Response messages built by send_http_response are modelled as lists of
  characters (the C++ std::string bytes), built exactly as the source does.
- The sendfile streaming loop of send_file_content is modelled as a function
  over a finite trace of per-attempt transfer results: each attempt either
  reports positive progress (sendfile returned sent > 0), a transient
  condition (sent <= 0 with errno EAGAIN/EINTR), a peer disconnect
  (errno EPIPE), or another fatal error.  The loop state (offset, remaining)
  and the sequence of request sizes handed to sendfile are tracked
  explicitly; machine integers are modelled as Nat (the source values are
  non-negative throughout: off_t sizes of real files, and remaining never
  goes below zero because sendfile never transfers more than requested).
- handle_client is modelled as a function of the initial recv result, the
  per-request file-open result, and the streaming trace, recording the
  response message sent, whether the streaming engine ran, whether the file
  open was attempted, and how many shutdown/close calls the taken path makes.
-/

namespace Streamix

/-- config::SEND_CHUNK_SIZE, 8 MiB (streamix.cpp line 31). -/
def SEND_CHUNK_SIZE : Nat := 8 * 1024 * 1024

/-- Result of one sendfile attempt in send_file_content, classified the way
the source inspects it: sent > 0 is progress, otherwise errno selects the
transient (EAGAIN/EINTR), peer-disconnect (EPIPE) or fatal case. -/
inductive SendResult where
  | progress (n : Nat)
  | transient
  | epipe
  | fatal
deriving DecidableEq

/-- State observed of one run of the send_file_content loop: whether the
loop exited (some b means the function returned b; none means the finite
trace was exhausted while the loop was still running), the final file
offset (total bytes delivered), the final remaining counter, and the log of
(remaining-at-attempt, requested-count) pairs issued to sendfile. -/
structure SfcState where
  exited : Option Bool
  offset : Nat
  remaining : Nat
  requests : List (Nat × Nat)
deriving DecidableEq

/-- The loop of send_file_content (streamix.cpp lines 280-302), driven by a
finite trace of sendfile attempt results.  while (remaining > 0) it requests
min(remaining, SEND_CHUNK_SIZE) bytes; on progress it advances offset and
decrements remaining by the bytes sent; on a transient condition it retries
with unchanged state; on EPIPE it breaks and returns true; on any other
error it returns false. -/
def sfc (tr : List SendResult) (off rem : Nat) : SfcState :=
  if rem = 0 then ⟨some true, off, rem, []⟩
  else
    match tr with
    | [] => ⟨none, off, rem, []⟩
    | SendResult.progress n :: rest =>
      let s := sfc rest (off + n) (rem - n)
      ⟨s.exited, s.offset, s.remaining, (rem, min rem SEND_CHUNK_SIZE) :: s.requests⟩
    | SendResult.transient :: rest =>
      let s := sfc rest off rem
      ⟨s.exited, s.offset, s.remaining, (rem, min rem SEND_CHUNK_SIZE) :: s.requests⟩
    | SendResult.epipe :: _ => ⟨some true, off, rem, [(rem, min rem SEND_CHUNK_SIZE)]⟩
    | SendResult.fatal :: _ => ⟨some false, off, rem, [(rem, min rem SEND_CHUNK_SIZE)]⟩

/-- Physical validity of a trace against the loop state it is consumed in:
sendfile reports at least one byte on progress and never more than the
requested min(remaining, SEND_CHUNK_SIZE).  Elements the loop never
consumes (after an exit) are unconstrained. -/
def validFrom (rem : Nat) : List SendResult → Bool
  | [] => true
  | r :: rest =>
    if rem = 0 then true
    else
      match r with
      | SendResult.progress n =>
        decide (1 ≤ n) && decide (n ≤ min rem SEND_CHUNK_SIZE) && validFrom (rem - n) rest
      | SendResult.transient => validFrom rem rest
      | SendResult.epipe => true
      | SendResult.fatal => true

/-- A trace with no peer-disconnect and no fatal transfer error. -/
def noHard : List SendResult → Bool
  | [] => true
  | SendResult.epipe :: _ => false
  | SendResult.fatal :: _ => false
  | _ :: rest => noHard rest

/-- Total bytes of positive progress reported along a trace. -/
def sumProg : List SendResult → Nat
  | [] => 0
  | SendResult.progress n :: rest => n + sumProg rest
  | _ :: rest => sumProg rest

/-- First n attempt results produced by an infinite environment. -/
def traceN (env : Nat → SendResult) (n : Nat) : List SendResult :=
  (List.range n).map env

/-- Decimal digit characters of a Nat, as std::to_string produces. -/
def natChars (n : Nat) : List Char :=
  (Nat.repr n).data

/-- send_http_response (streamix.cpp lines 251-271), modelled as the exact
byte string it writes to the socket: status line, then the caller-supplied
header block if non-empty, then a Content-Length header if the body is
non-empty, then Connection: close, a blank line, and the body. -/
def send_http_response_msg (status_code : Nat) (status_text headers body : List Char) : List Char :=
  let r0 := "HTTP/1.1 ".data ++ natChars status_code ++ " ".data ++ status_text ++ "\r\n".data
  let r1 := if headers = [] then r0 else r0 ++ headers
  let r2 := if body = [] then r1
            else r1 ++ "Content-Length: ".data ++ natChars body.length ++ "\r\n".data
  r2 ++ "Connection: close\r\n".data ++ "\r\n".data ++ body

/-- Header block handle_client builds for the 200 response (streamix.cpp
lines 347-349): Content-Length first, then Content-Type. -/
def success_headers (size : Nat) : List Char :=
  "Content-Length: ".data ++ natChars size ++ "\r\n".data
    ++ "Content-Type: application/octet-stream\r\n".data

/-- The 405 response message handle_client sends (streamix.cpp lines 334-337). -/
def msg405 : List Char :=
  send_http_response_msg 405 "Method Not Allowed".data
    ("Content-Type: text/plain\r\n".data ++ "Allow: GET, HEAD\r\n".data)
    "405 Method Not Allowed\n".data

/-- The 500 response message handle_client sends (streamix.cpp lines 358-360). -/
def msg500 : List Char :=
  send_http_response_msg 500 "Internal Server Error".data
    "Content-Type: text/plain\r\n".data
    "500 Internal Server Error\n".data

/-- The bytes of the literal "HEAD " the request is compared against. -/
def headPfx : List Nat := [72, 69, 65, 68, 32]

/-- The bytes of the literal "GET " the request is compared against. -/
def getPfx : List Nat := [71, 69, 84, 32]

/-- How handle_client classifies a request (streamix.cpp lines 330-332). -/
inductive ReqClass where
  | serveGET
  | serveHEAD
  | unsupported
deriving DecidableEq

/-- Request classification from the received bytes: the buffer is
NUL-terminated at the byte count read, so the std::string_view built from
it holds the received bytes up to the first NUL; request.find(pat) == 0
holds exactly when pat is a leading substring of that view. -/
def classify_request (bytes : List Nat) : ReqClass :=
  let request := bytes.takeWhile (fun b => b != 0)
  if headPfx.isPrefixOf request then ReqClass.serveHEAD
  else if getPfx.isPrefixOf request then ReqClass.serveGET
  else ReqClass.unsupported

/-- Observable outcome of one run of handle_client: the HTTP message sent
via send_http_response (none when no response was sent), the streaming-loop
state when send_file_content ran (none when it did not), whether the
per-request file open was attempted, and how many shutdown and close calls
the taken path performs on the client descriptor. -/
structure ClientOutcome where
  response : Option (List Char)
  streamed : Option SfcState
  openedFile : Bool
  shutdowns : Nat
  closes : Nat
deriving DecidableEq

/-- handle_client (streamix.cpp lines 313-366) as a function of the recv
result (none when recv returned <= 0), the per-request file open (none when
File's constructor throws, some size on success), and the streaming trace.
Paths: empty read closes with no shutdown and no response; unsupported
method sends 405 then shutdown+close; open failure is caught and sends 500
then shutdown+close; GET/HEAD send the 200 header message, GET additionally
runs the streaming loop, then shutdown+close. -/
def handle_client (recv : Option (List Nat)) (fileSize : Option Nat)
    (tr : List SendResult) : ClientOutcome :=
  match recv with
  | none => ⟨none, none, false, 0, 1⟩
  | some bytes =>
    if classify_request bytes = ReqClass.unsupported then
      ⟨some msg405, none, false, 1, 1⟩
    else
      match fileSize with
      | none => ⟨some msg500, none, true, 1, 1⟩
      | some size =>
        let resp := send_http_response_msg 200 "OK".data (success_headers size) []
        if classify_request bytes = ReqClass.serveHEAD then
          ⟨some resp, none, true, 1, 1⟩
        else
          ⟨some resp, some (sfc tr 0 size), true, 1, 1⟩

/-- Index of the first occurrence of a pattern inside a character list. -/
def findSub (p : List Char) : List Char → Option Nat
  | [] => if p.isPrefixOf ([] : List Char) then some 0 else none
  | c :: rest =>
    if p.isPrefixOf (c :: rest) then some 0
    else Option.map (fun i => i + 1) (findSub p rest)

/-- The literal wire form of the 200 response message for a file of n
bytes, as the source emits it: status line, Content-Length, Content-Type,
Connection: close, blank line, no body. -/
def successWire (n : Nat) : List Char :=
  "HTTP/1.1 200 OK\r\nContent-Length: ".data ++ natChars n
    ++ "\r\nContent-Type: application/octet-stream\r\nConnection: close\r\n\r\n".data

example : sfc [SendResult.progress 1] 0 1 = ⟨some true, 1, 0, [(1, 1)]⟩ := by decide

example : classify_request [71, 69, 84, 32, 47] = ReqClass.serveGET := by decide

example : classify_request [72, 69, 65, 68, 32, 47] = ReqClass.serveHEAD := by decide

example : classify_request [80, 79, 83, 84, 32] = ReqClass.unsupported := by decide

example :
    msg500 =
      "HTTP/1.1 500 Internal Server Error\r\nContent-Type: text/plain\r\nContent-Length: 26\r\nConnection: close\r\n\r\n500 Internal Server Error\n".data := by
  decide

theorem sfc_zero (tr : List SendResult) (off : Nat) :
    sfc tr off 0 = ⟨some true, off, 0, []⟩ := by
  conv_lhs => rw [sfc.eq_def]
  simp

theorem sfc_nil (off rem : Nat) (h : rem ≠ 0) :
    sfc [] off rem = ⟨none, off, rem, []⟩ := by
  conv_lhs => rw [sfc.eq_def]
  rw [if_neg h]

theorem sfc_progress (n : Nat) (rest : List SendResult) (off rem : Nat) (h : rem ≠ 0) :
    sfc (SendResult.progress n :: rest) off rem =
      ⟨(sfc rest (off + n) (rem - n)).exited, (sfc rest (off + n) (rem - n)).offset,
        (sfc rest (off + n) (rem - n)).remaining,
        (rem, min rem SEND_CHUNK_SIZE) :: (sfc rest (off + n) (rem - n)).requests⟩ := by
  conv_lhs => rw [sfc]
  rw [if_neg h]

theorem sfc_transient (rest : List SendResult) (off rem : Nat) (h : rem ≠ 0) :
    sfc (SendResult.transient :: rest) off rem =
      ⟨(sfc rest off rem).exited, (sfc rest off rem).offset, (sfc rest off rem).remaining,
        (rem, min rem SEND_CHUNK_SIZE) :: (sfc rest off rem).requests⟩ := by
  conv_lhs => rw [sfc]
  rw [if_neg h]

theorem sfc_epipe (rest : List SendResult) (off rem : Nat) (h : rem ≠ 0) :
    sfc (SendResult.epipe :: rest) off rem =
      ⟨some true, off, rem, [(rem, min rem SEND_CHUNK_SIZE)]⟩ := by
  conv_lhs => rw [sfc]
  rw [if_neg h]

theorem sfc_fatal (rest : List SendResult) (off rem : Nat) (h : rem ≠ 0) :
    sfc (SendResult.fatal :: rest) off rem =
      ⟨some false, off, rem, [(rem, min rem SEND_CHUNK_SIZE)]⟩ := by
  conv_lhs => rw [sfc]
  rw [if_neg h]

/-- Offset plus remaining is conserved by the loop on physically valid
traces: every byte sendfile reports moves from remaining to offset. -/
theorem sfc_conserve (tr : List SendResult) :
    ∀ off rem, validFrom rem tr = true →
      (sfc tr off rem).offset + (sfc tr off rem).remaining = off + rem := by
  induction tr with
  | nil =>
    intro off rem _
    by_cases h : rem = 0
    · subst h; rw [sfc_zero]
    · rw [sfc_nil off rem h]
  | cons r rest ih =>
    intro off rem hv
    by_cases h : rem = 0
    · subst h; rw [sfc_zero]
    · cases r with
      | progress n =>
        rw [sfc_progress n rest off rem h]
        dsimp only
        simp only [validFrom, if_neg h, Bool.and_eq_true, decide_eq_true_eq] at hv
        obtain ⟨⟨h1, h2⟩, hv⟩ := hv
        have hn : n ≤ rem := le_trans h2 (Nat.min_le_left _ _)
        have := ih (off + n) (rem - n) hv
        omega
      | transient =>
        rw [sfc_transient rest off rem h]
        simp only [validFrom, if_neg h] at hv
        exact ih off rem hv
      | epipe => rw [sfc_epipe rest off rem h]
      | fatal => rw [sfc_fatal rest off rem h]

/-- On a trace with no peer disconnect and no fatal error, the loop can
only exit by driving remaining to zero, and then it reports success. -/
theorem sfc_noHard_exit (tr : List SendResult) :
    ∀ off rem, noHard tr = true → ((sfc tr off rem).exited).isSome = true →
      (sfc tr off rem).exited = some true ∧ (sfc tr off rem).remaining = 0 := by
  induction tr with
  | nil =>
    intro off rem _ hs
    by_cases h : rem = 0
    · subst h; rw [sfc_zero]; exact ⟨rfl, rfl⟩
    · rw [sfc_nil off rem h] at hs ⊢
      simp at hs
  | cons r rest ih =>
    intro off rem hnh hs
    by_cases h : rem = 0
    · subst h; rw [sfc_zero]; exact ⟨rfl, rfl⟩
    · cases r with
      | progress n =>
        rw [sfc_progress n rest off rem h] at hs ⊢
        exact ih (off + n) (rem - n) hnh hs
      | transient =>
        rw [sfc_transient rest off rem h] at hs ⊢
        exact ih off rem hnh hs
      | epipe => simp [noHard] at hnh
      | fatal => simp [noHard] at hnh

/-- If a trace of only progress and transient results supplies exactly the
remaining number of bytes, the loop exits with success and delivers them
all: transient retries neither double-count nor skip bytes. -/
theorem sfc_sum_exit (tr : List SendResult) :
    ∀ off rem, validFrom rem tr = true → noHard tr = true → sumProg tr = rem →
      (sfc tr off rem).exited = some true ∧ (sfc tr off rem).offset = off + rem := by
  induction tr with
  | nil =>
    intro off rem _ _ hsum
    have h : rem = 0 := by simpa [sumProg] using hsum.symm
    subst h; rw [sfc_zero]; exact ⟨rfl, rfl⟩
  | cons r rest ih =>
    intro off rem hv hnh hsum
    by_cases h : rem = 0
    · subst h; rw [sfc_zero]; exact ⟨rfl, rfl⟩
    · cases r with
      | progress n =>
        rw [sfc_progress n rest off rem h]
        dsimp only
        simp only [validFrom, if_neg h, Bool.and_eq_true, decide_eq_true_eq] at hv
        obtain ⟨⟨h1, h2⟩, hv⟩ := hv
        have hn : n ≤ rem := le_trans h2 (Nat.min_le_left _ _)
        simp only [sumProg] at hsum
        have hnh' : noHard rest = true := by simpa [noHard] using hnh
        have := ih (off + n) (rem - n) hv hnh' (by omega)
        exact ⟨this.1, by omega⟩
      | transient =>
        rw [sfc_transient rest off rem h]
        simp only [validFrom, if_neg h] at hv
        have hnh' : noHard rest = true := by simpa [noHard] using hnh
        simp only [sumProg] at hsum
        exact ih off rem hv hnh' hsum
      | epipe => simp [noHard] at hnh
      | fatal => simp [noHard] at hnh

/-- Every request the loop issues to sendfile is recorded with the remaining
counter it was issued under; the requested count is always
min(remaining, SEND_CHUNK_SIZE), positive, bounded by the chunk size, and
the remaining counter at each attempt never exceeds its starting value. -/
theorem sfc_requests (tr : List SendResult) :
    ∀ off rem, ∀ p ∈ (sfc tr off rem).requests,
      p.2 = min p.1 SEND_CHUNK_SIZE ∧ p.2 ≤ SEND_CHUNK_SIZE ∧ 0 < p.1 ∧ p.1 ≤ rem := by
  induction tr with
  | nil =>
    intro off rem p hp
    by_cases h : rem = 0
    · subst h; rw [sfc_zero] at hp; simp at hp
    · rw [sfc_nil off rem h] at hp; simp at hp
  | cons r rest ih =>
    intro off rem p hp
    by_cases h : rem = 0
    · subst h; rw [sfc_zero] at hp; simp at hp
    · cases r with
      | progress n =>
        rw [sfc_progress n rest off rem h] at hp
        simp only [List.mem_cons] at hp
        rcases hp with hp | hp
        · subst hp
          exact ⟨rfl, Nat.min_le_right _ _, Nat.pos_of_ne_zero h, le_refl _⟩
        · have := ih (off + n) (rem - n) p hp
          exact ⟨this.1, this.2.1, this.2.2.1, le_trans this.2.2.2 (Nat.sub_le _ _)⟩
      | transient =>
        rw [sfc_transient rest off rem h] at hp
        simp only [List.mem_cons] at hp
        rcases hp with hp | hp
        · subst hp
          exact ⟨rfl, Nat.min_le_right _ _, Nat.pos_of_ne_zero h, le_refl _⟩
        · exact ih off rem p hp
      | epipe =>
        rw [sfc_epipe rest off rem h] at hp
        simp only [List.mem_cons, List.not_mem_nil, or_false] at hp
        subst hp
        exact ⟨rfl, Nat.min_le_right _ _, Nat.pos_of_ne_zero h, le_refl _⟩
      | fatal =>
        rw [sfc_fatal rest off rem h] at hp
        simp only [List.mem_cons, List.not_mem_nil, or_false] at hp
        subst hp
        exact ⟨rfl, Nat.min_le_right _ _, Nat.pos_of_ne_zero h, le_refl _⟩

/-- The loop reports success only when remaining reached zero or the peer
disconnected, and failure only when a fatal transfer error occurred. -/
theorem sfc_exit_reason (tr : List SendResult) :
    ∀ off rem,
      ((sfc tr off rem).exited = some true →
        (sfc tr off rem).remaining = 0 ∨ SendResult.epipe ∈ tr) ∧
      ((sfc tr off rem).exited = some false → SendResult.fatal ∈ tr) := by
  induction tr with
  | nil =>
    intro off rem
    by_cases h : rem = 0
    · subst h; rw [sfc_zero]; exact ⟨fun _ => Or.inl rfl, fun hf => by simp at hf⟩
    · rw [sfc_nil off rem h]; exact ⟨fun ht => by simp at ht, fun hf => by simp at hf⟩
  | cons r rest ih =>
    intro off rem
    by_cases h : rem = 0
    · subst h; rw [sfc_zero]; exact ⟨fun _ => Or.inl rfl, fun hf => by simp at hf⟩
    · cases r with
      | progress n =>
        rw [sfc_progress n rest off rem h]
        refine ⟨fun ht => ?_, fun hf => ?_⟩
        · rcases (ih (off + n) (rem - n)).1 ht with h0 | hm
          · exact Or.inl h0
          · exact Or.inr (List.mem_cons_of_mem _ hm)
        · exact List.mem_cons_of_mem _ ((ih (off + n) (rem - n)).2 hf)
      | transient =>
        rw [sfc_transient rest off rem h]
        refine ⟨fun ht => ?_, fun hf => ?_⟩
        · rcases (ih off rem).1 ht with h0 | hm
          · exact Or.inl h0
          · exact Or.inr (List.mem_cons_of_mem _ hm)
        · exact List.mem_cons_of_mem _ ((ih off rem).2 hf)
      | epipe =>
        rw [sfc_epipe rest off rem h]
        exact ⟨fun _ => Or.inr (List.mem_cons_self _ _), fun hf => by simp at hf⟩
      | fatal =>
        rw [sfc_fatal rest off rem h]
        exact ⟨fun ht => by simp at ht, fun _ => List.mem_cons_self _ _⟩

/-- A pattern that leads the NUL-truncated view also leads the raw bytes. -/
theorem pfxOf_takeWhile_imp (p : List Nat) :
    ∀ (l : List Nat) (q : Nat → Bool),
      p.isPrefixOf (l.takeWhile q) = true → p.isPrefixOf l = true := by
  induction p with
  | nil => intro l q _; simp [List.isPrefixOf]
  | cons a p' ih =>
    intro l q h
    cases l with
    | nil => simp [List.takeWhile_nil, List.isPrefixOf] at h
    | cons x l' =>
      by_cases hq : q x
      · rw [List.takeWhile_cons, if_pos hq] at h
        simp only [List.isPrefixOf, Bool.and_eq_true] at h ⊢
        exact ⟨h.1, ih l' q h.2⟩
      · rw [List.takeWhile_cons, if_neg hq] at h
        simp [List.isPrefixOf] at h

/-- Bytes beginning with "GET " are classified serve-GET. -/
theorem classify_of_get (b : List Nat) (h : getPfx.isPrefixOf b = true) :
    classify_request b = ReqClass.serveGET := by
  rcases b with _ | ⟨b0, _ | ⟨b1, _ | ⟨b2, _ | ⟨b3, rest⟩⟩⟩⟩ <;>
    simp [getPfx, List.isPrefixOf] at h
  obtain ⟨h0, h1, h2, h3⟩ := h
  subst h0; subst h1; subst h2; subst h3
  simp [classify_request, headPfx, getPfx, List.takeWhile_cons, List.isPrefixOf]

/-- Bytes beginning with "HEAD " are classified serve-HEAD. -/
theorem classify_of_head (b : List Nat) (h : headPfx.isPrefixOf b = true) :
    classify_request b = ReqClass.serveHEAD := by
  rcases b with _ | ⟨b0, _ | ⟨b1, _ | ⟨b2, _ | ⟨b3, _ | ⟨b4, rest⟩⟩⟩⟩⟩ <;>
    simp [headPfx, List.isPrefixOf] at h
  obtain ⟨h0, h1, h2, h3, h4⟩ := h
  subst h0; subst h1; subst h2; subst h3; subst h4
  simp [classify_request, headPfx, List.takeWhile_cons, List.isPrefixOf]

/-- Bytes beginning with neither "GET " nor "HEAD " are classified
unsupported. -/
theorem classify_of_other (b : List Nat) (hg : getPfx.isPrefixOf b = false)
    (hh : headPfx.isPrefixOf b = false) :
    classify_request b = ReqClass.unsupported := by
  have h1 : headPfx.isPrefixOf (b.takeWhile (fun x => x != 0)) = false := by
    cases hcase : headPfx.isPrefixOf (b.takeWhile (fun x => x != 0)) with
    | false => rfl
    | true => exact absurd (pfxOf_takeWhile_imp headPfx b _ hcase) (by simp [hh])
  have h2 : getPfx.isPrefixOf (b.takeWhile (fun x => x != 0)) = false := by
    cases hcase : getPfx.isPrefixOf (b.takeWhile (fun x => x != 0)) with
    | false => rfl
    | true => exact absurd (pfxOf_takeWhile_imp getPfx b _ hcase) (by simp [hg])
  simp [classify_request, h1, h2]

/-- Whether a pattern leads a list is decided by the list's first
pattern-length elements. -/
theorem pfxOf_take (p : List Nat) :
    ∀ (k : Nat) (l : List Nat), p.length ≤ k →
      p.isPrefixOf (l.take k) = p.isPrefixOf l := by
  induction p with
  | nil => intro k l _; simp [List.isPrefixOf]
  | cons a p' ih =>
    intro k l hk
    cases k with
    | zero => simp [List.length_cons] at hk
    | succ k' =>
      cases l with
      | nil => simp [List.take_nil]
      | cons x l' =>
        have hk' : p'.length ≤ k' := by simp [List.length_cons] at hk; omega
        simp only [List.take_succ_cons, List.isPrefixOf]
        rw [ih k' l' hk']

/-- Truncating before or after NUL-truncation gives the same view. -/
theorem takeWhile_take_comm (q : Nat → Bool) :
    ∀ (l : List Nat) (k : Nat),
      (l.take k).takeWhile q = (l.takeWhile q).take k := by
  intro l
  induction l with
  | nil => intro k; simp
  | cons x l' ih =>
    intro k
    cases k with
    | zero => simp
    | succ k' =>
      by_cases hq : q x
      · simp [List.take_succ_cons, List.takeWhile_cons, hq, ih]
      · simp [List.take_succ_cons, List.takeWhile_cons, hq]

/-- Request classification is a function of the first five received bytes
alone. -/
theorem classify_take5 (b : List Nat) :
    classify_request b = classify_request (b.take 5) := by
  have hh := pfxOf_take headPfx 5 (b.takeWhile (fun x => x != 0)) (by decide)
  have hg := pfxOf_take getPfx 5 (b.takeWhile (fun x => x != 0)) (by decide)
  simp only [classify_request, takeWhile_take_comm, hh, hg]

/-- The 200 header block is never the empty string. -/
theorem success_headers_ne_nil (n : Nat) : success_headers n ≠ [] := by
  unfold success_headers
  have h : "Content-Length: ".data = 'C' :: "ontent-Length: ".data := rfl
  rw [h]
  simp

/-- Shape of a framed response with a non-empty header block and an empty
body: no Content-Length line is added by send_http_response itself. -/
theorem msg_shape_noBody (code : Nat) (st hs : List Char) (h : hs ≠ []) :
    send_http_response_msg code st hs [] =
      "HTTP/1.1 ".data ++ natChars code ++ " ".data ++ st ++ "\r\n".data ++ hs
        ++ "Connection: close\r\n".data ++ "\r\n".data := by
  unfold send_http_response_msg
  simp [h]

/-- The exact bytes of the 200 response message, for every file size. -/
theorem success_response_eq (n : Nat) :
    send_http_response_msg 200 "OK".data (success_headers n) [] = successWire n := by
  rw [msg_shape_noBody 200 "OK".data (success_headers n) (success_headers_ne_nil n)]
  unfold successWire success_headers
  simp only [List.append_assoc]
  rfl

/-- Leading transient results leave the loop exit status untouched. -/
theorem sfc_exited_transient_skip (k : Nat) :
    ∀ (tr : List SendResult) (off rem : Nat),
      (sfc (List.replicate k SendResult.transient ++ tr) off rem).exited
        = (sfc tr off rem).exited := by
  induction k with
  | zero => intro tr off rem; rfl
  | succ k' ih =>
    intro tr off rem
    by_cases h : rem = 0
    · subst h; rw [sfc_zero, sfc_zero]
    · rw [List.replicate_succ, List.cons_append, sfc_transient _ _ _ h]
      exact ih tr off rem

theorem traceN_succ (env : Nat → SendResult) (n : Nat) :
    traceN env (n + 1) = traceN env n ++ [env n] := by
  unfold traceN
  rw [List.range_succ, List.map_append]
  rfl

theorem traceN_split (env : Nat → SendResult) (a : Nat) :
    ∀ b, traceN env (a + b) = traceN env a ++ traceN (fun i => env (a + i)) b := by
  intro b
  induction b with
  | zero => simp [traceN]
  | succ b' ih =>
    rw [show a + (b' + 1) = (a + b') + 1 from rfl]
    rw [traceN_succ, ih, traceN_succ, List.append_assoc]

theorem traceN_all_transient (env : Nat → SendResult) :
    ∀ k, (∀ i, i < k → env i = SendResult.transient) →
      traceN env k = List.replicate k SendResult.transient := by
  intro k
  induction k with
  | zero => intro _; rfl
  | succ k' ih =>
    intro h
    rw [traceN_succ, ih (fun i hi => h i (by omega)), h k' (by omega),
      List.replicate_succ']

/-- An environment that answers transient forever never lets the loop exit:
after any number of attempt results the loop with one byte remaining is
still running. -/
theorem sfc_all_transient_none (n : Nat) :
    (sfc (List.replicate n SendResult.transient) 0 1).exited = none := by
  induction n with
  | zero => rw [List.replicate_zero, sfc_nil 0 1 (by omega)]
  | succ n' ih =>
    rw [List.replicate_succ, sfc_transient _ _ _ (by omega : (1 : Nat) ≠ 0)]
    exact ih

/-- Termination of the streaming loop under fairness: if non-transient
results keep occurring, some finite number of attempt results makes the
loop exit. -/
theorem sfc_fair_terminates :
    ∀ (rem : Nat) (env : Nat → SendResult) (off : Nat),
      (∀ n, ∃ m, n ≤ m ∧ env m ≠ SendResult.transient) →
      (∀ m k, env m = SendResult.progress k → 1 ≤ k) →
      ∃ n, ((sfc (traceN env n) off rem).exited).isSome = true := by
  intro rem
  induction rem using Nat.strong_induction_on with
  | _ rem IH =>
    intro env off hfair hpos
    by_cases h0 : rem = 0
    · refine ⟨0, ?_⟩
      subst h0
      rw [sfc_zero]
      rfl
    · have hex : ∃ m, env m ≠ SendResult.transient := by
        obtain ⟨m, _, hm⟩ := hfair 0
        exact ⟨m, hm⟩
      set m0 := Nat.find hex with hm0def
      have hm0 : env m0 ≠ SendResult.transient := by
        rw [hm0def]; exact Nat.find_spec hex
      have hlt : ∀ i, i < m0 → env i = SendResult.transient := by
        intro i hi
        rw [hm0def] at hi
        have hni := Nat.find_min hex hi
        simpa using hni
      cases hE : env m0 with
      | transient => exact absurd hE hm0
      | epipe =>
        refine ⟨m0 + 1, ?_⟩
        have htr : traceN env (m0 + 1) =
            List.replicate m0 SendResult.transient ++ [SendResult.epipe] := by
          rw [traceN_succ, traceN_all_transient env m0 hlt, hE]
        rw [htr, sfc_exited_transient_skip m0, sfc_epipe _ off rem h0]
        rfl
      | fatal =>
        refine ⟨m0 + 1, ?_⟩
        have htr : traceN env (m0 + 1) =
            List.replicate m0 SendResult.transient ++ [SendResult.fatal] := by
          rw [traceN_succ, traceN_all_transient env m0 hlt, hE]
        rw [htr, sfc_exited_transient_skip m0, sfc_fatal _ off rem h0]
        rfl
      | progress k =>
        have hk : 1 ≤ k := hpos m0 k hE
        have hdec : rem - k < rem := by omega
        have hfair' : ∀ n, ∃ m, n ≤ m ∧
            (fun i => env (m0 + 1 + i)) m ≠ SendResult.transient := by
          intro n
          obtain ⟨m, hm1, hm2⟩ := hfair (m0 + 1 + n)
          refine ⟨m - (m0 + 1), by omega, ?_⟩
          have heq : m0 + 1 + (m - (m0 + 1)) = m := by omega
          simpa [heq] using hm2
        have hpos' : ∀ m j, (fun i => env (m0 + 1 + i)) m = SendResult.progress j →
            1 ≤ j := by
          intro m j hmj
          exact hpos (m0 + 1 + m) j hmj
        obtain ⟨n', hn'⟩ := IH (rem - k) hdec (fun i => env (m0 + 1 + i)) (off + k)
          hfair' hpos'
        refine ⟨m0 + 1 + n', ?_⟩
        have htr : traceN env (m0 + 1) =
            List.replicate m0 SendResult.transient ++ [SendResult.progress k] := by
          rw [traceN_succ, traceN_all_transient env m0 hlt, hE]
        rw [traceN_split env (m0 + 1) n', htr, List.append_assoc,
          List.singleton_append, sfc_exited_transient_skip m0,
          sfc_progress k _ off rem h0]
        exact hn'

/-- C1: for a connection whose initial read begins with "GET ", whose file
open succeeds with size N, and whose streaming trace is physically valid,
reaches completion, and contains no peer-disconnect or fatal transfer
error, the worker sends the 200 OK message advertising Content-Length N and
the streaming loop reports success having delivered exactly N bytes. -/
theorem c1_valid_get_serves_exactly_N (bytes : List Nat) (N : Nat)
    (tr : List SendResult)
    (hreq : getPfx.isPrefixOf bytes = true)
    (hvalid : validFrom N tr = true)
    (hnh : noHard tr = true)
    (hdone : ((sfc tr 0 N).exited).isSome = true) :
    (handle_client (some bytes) (some N) tr).response = some (successWire N) ∧
    (handle_client (some bytes) (some N) tr).streamed = some (sfc tr 0 N) ∧
    (sfc tr 0 N).exited = some true ∧
    (sfc tr 0 N).offset = N := by
  have hclass := classify_of_get bytes hreq
  have hexit := sfc_noHard_exit tr 0 N hnh hdone
  have hcons := sfc_conserve tr 0 N hvalid
  have hrem := hexit.2
  refine ⟨?_, ?_, hexit.1, by omega⟩
  · simp [handle_client, hclass]
    exact success_response_eq N
  · simp [handle_client, hclass]

/-- C1 witness: a concrete GET with a 5-byte file, served in two progress
steps around a transient retry. -/
theorem c1_valid_get_serves_exactly_N_witness :
    getPfx.isPrefixOf [71, 69, 84, 32, 47] = true ∧
    validFrom 5 [SendResult.progress 3, SendResult.transient, SendResult.progress 2] = true ∧
    noHard [SendResult.progress 3, SendResult.transient, SendResult.progress 2] = true ∧
    ((sfc [SendResult.progress 3, SendResult.transient, SendResult.progress 2] 0 5).exited).isSome = true ∧
    ((handle_client (some [71, 69, 84, 32, 47]) (some 5)
        [SendResult.progress 3, SendResult.transient, SendResult.progress 2]).response =
          some (successWire 5) ∧
      (handle_client (some [71, 69, 84, 32, 47]) (some 5)
        [SendResult.progress 3, SendResult.transient, SendResult.progress 2]).streamed =
          some (sfc [SendResult.progress 3, SendResult.transient, SendResult.progress 2] 0 5) ∧
      (sfc [SendResult.progress 3, SendResult.transient, SendResult.progress 2] 0 5).exited = some true ∧
      (sfc [SendResult.progress 3, SendResult.transient, SendResult.progress 2] 0 5).offset = 5) :=
  ⟨by decide, by decide, by decide, by decide,
    c1_valid_get_serves_exactly_N [71, 69, 84, 32, 47] 5
      [SendResult.progress 3, SendResult.transient, SendResult.progress 2]
      (by decide) (by decide) (by decide) (by decide)⟩

/-- C2: exact case analysis of a non-positive or positive attempt while
bytes remain: a transient condition retries the same request with offset
and remaining unchanged; peer disconnect stops the loop reporting success;
any other error aborts reporting failure; and any finite interleaving of
transient retries with valid positive progress summing to the file size
delivers exactly the file size, with no byte double-counted or skipped. -/
theorem c2_attempt_case_analysis (off rem : Nat) (rest : List SendResult)
    (h : rem ≠ 0) :
    sfc (SendResult.transient :: rest) off rem =
      ⟨(sfc rest off rem).exited, (sfc rest off rem).offset, (sfc rest off rem).remaining,
        (rem, min rem SEND_CHUNK_SIZE) :: (sfc rest off rem).requests⟩ ∧
    sfc (SendResult.epipe :: rest) off rem =
      ⟨some true, off, rem, [(rem, min rem SEND_CHUNK_SIZE)]⟩ ∧
    sfc (SendResult.fatal :: rest) off rem =
      ⟨some false, off, rem, [(rem, min rem SEND_CHUNK_SIZE)]⟩ ∧
    (∀ tr : List SendResult, validFrom rem tr = true → noHard tr = true →
      sumProg tr = rem →
      (sfc tr off rem).exited = some true ∧ (sfc tr off rem).offset = off + rem) :=
  ⟨sfc_transient rest off rem h, sfc_epipe rest off rem h, sfc_fatal rest off rem h,
    fun tr hv hnh hs => sfc_sum_exit tr off rem hv hnh hs⟩

/-- C2 witness: concrete instantiation at 7 remaining bytes. -/
theorem c2_attempt_case_analysis_witness :
    (7 : Nat) ≠ 0 ∧
    (sfc (SendResult.transient :: []) 0 7 =
      ⟨(sfc [] 0 7).exited, (sfc [] 0 7).offset, (sfc [] 0 7).remaining,
        (7, min 7 SEND_CHUNK_SIZE) :: (sfc [] 0 7).requests⟩ ∧
    sfc (SendResult.epipe :: []) 0 7 =
      ⟨some true, 0, 7, [(7, min 7 SEND_CHUNK_SIZE)]⟩ ∧
    sfc (SendResult.fatal :: []) 0 7 =
      ⟨some false, 0, 7, [(7, min 7 SEND_CHUNK_SIZE)]⟩ ∧
    (∀ tr : List SendResult, validFrom 7 tr = true → noHard tr = true →
      sumProg tr = 7 →
      (sfc tr 0 7).exited = some true ∧ (sfc tr 0 7).offset = 0 + 7)) :=
  ⟨by decide, c2_attempt_case_analysis 0 7 [] (by decide)⟩

/-- C3: on every physically valid trace the loop requests exactly
min(remaining, SEND_CHUNK_SIZE) bytes at each attempt (so never more than
8 MiB per attempt), issues requests only while remaining is positive and at
most the file size, and conserves offset + remaining, so the cumulative
bytes delivered never exceed the file size, on full transfers and on both
early-exit paths alike. -/
theorem c3_loop_invariants (size : Nat) (tr : List SendResult)
    (hvalid : validFrom size tr = true) :
    (∀ p ∈ (sfc tr 0 size).requests,
      p.2 = min p.1 SEND_CHUNK_SIZE ∧ p.2 ≤ SEND_CHUNK_SIZE ∧
      0 < p.1 ∧ p.1 ≤ size) ∧
    (sfc tr 0 size).offset + (sfc tr 0 size).remaining = size ∧
    (sfc tr 0 size).offset ≤ size := by
  have hreq := sfc_requests tr 0 size
  have hcons := sfc_conserve tr 0 size hvalid
  exact ⟨hreq, by omega, by omega⟩

/-- C3 witness: a valid trace with an early peer disconnect. -/
theorem c3_loop_invariants_witness :
    validFrom 10 [SendResult.progress 4, SendResult.transient, SendResult.epipe] = true ∧
    ((∀ p ∈ (sfc [SendResult.progress 4, SendResult.transient, SendResult.epipe] 0 10).requests,
      p.2 = min p.1 SEND_CHUNK_SIZE ∧ p.2 ≤ SEND_CHUNK_SIZE ∧
      0 < p.1 ∧ p.1 ≤ 10) ∧
    (sfc [SendResult.progress 4, SendResult.transient, SendResult.epipe] 0 10).offset +
      (sfc [SendResult.progress 4, SendResult.transient, SendResult.epipe] 0 10).remaining = 10 ∧
    (sfc [SendResult.progress 4, SendResult.transient, SendResult.epipe] 0 10).offset ≤ 10) :=
  ⟨by decide,
    c3_loop_invariants 10 [SendResult.progress 4, SendResult.transient, SendResult.epipe]
      (by decide)⟩

/-- C4 counterexample: on the empty/failed initial read path the worker
closes the descriptor but performs no shutdown (streamix.cpp lines
321-324 call close without shutdown), refuting the claim that every path
shuts the connection down for both directions. -/
theorem c4_counterexample :
    (handle_client none none []).shutdowns = 0 ∧
    (handle_client none none []).closes = 1 :=
  ⟨rfl, rfl⟩

/-- C4 (amended): on every path through the connection worker the client
descriptor is closed exactly once, and every path except the empty/failed
initial read also shuts the connection down for both directions exactly
once; the empty-read path closes the descriptor without any shutdown. -/
theorem c4_close_exactly_once (recv : Option (List Nat)) (fs : Option Nat)
    (tr : List SendResult) :
    (handle_client recv fs tr).closes = 1 ∧
    (handle_client recv fs tr).shutdowns =
      (match recv with | none => 0 | some _ => 1) := by
  cases recv with
  | none => exact ⟨rfl, rfl⟩
  | some bytes =>
    by_cases hc : classify_request bytes = ReqClass.unsupported
    · simp [handle_client, hc]
    · cases fs with
      | none => simp [handle_client, hc]
      | some size =>
        by_cases hh : classify_request bytes = ReqClass.serveHEAD
        · simp [handle_client, hc, hh]
        · simp [handle_client, hc, hh]

/-- C5 counterexample: in the 200 success message for a zero-byte file the
Content-Length header occurs at index 17, before the Content-Type header at
index 36, refuting the claimed order (Content-Type before Content-Length)
for the success response. -/
theorem c5_counterexample :
    findSub "Content-Length:".data
        (send_http_response_msg 200 "OK".data (success_headers 0) []) = some 17 ∧
    findSub "Content-Type:".data
        (send_http_response_msg 200 "OK".data (success_headers 0) []) = some 36 ∧
    17 < 36 := by
  refine ⟨by decide, by decide, by decide⟩

/-- C5 (amended): every response follows the on-the-wire template with the
status line first, then headers, then Connection: close, the blank line and
the body; the 405 and 500 responses carry Content-Type (and Allow for 405)
before Content-Length, but the 200 success response carries Content-Length
before Content-Type. -/
theorem c5_wire_format (n : Nat) :
    send_http_response_msg 200 "OK".data (success_headers n) [] = successWire n ∧
    msg405 =
      "HTTP/1.1 405 Method Not Allowed\r\nContent-Type: text/plain\r\nAllow: GET, HEAD\r\nContent-Length: 23\r\nConnection: close\r\n\r\n405 Method Not Allowed\n".data ∧
    msg500 =
      "HTTP/1.1 500 Internal Server Error\r\nContent-Type: text/plain\r\nContent-Length: 26\r\nConnection: close\r\n\r\n500 Internal Server Error\n".data :=
  ⟨success_response_eq n, by decide, by decide⟩

/-- C6: a HEAD request over a file of size N receives exactly the status
line and headers a GET of the same size receives (200 OK, same
Content-Length, Content-Type application/octet-stream, Connection close),
and the streaming engine is never invoked for it. -/
theorem c6_head_same_headers_no_body (bytesH bytesG : List Nat) (N : Nat)
    (trH trG : List SendResult)
    (hh : headPfx.isPrefixOf bytesH = true)
    (hg : getPfx.isPrefixOf bytesG = true) :
    (handle_client (some bytesH) (some N) trH).response =
      (handle_client (some bytesG) (some N) trG).response ∧
    (handle_client (some bytesH) (some N) trH).response = some (successWire N) ∧
    (handle_client (some bytesH) (some N) trH).streamed = none := by
  have hch := classify_of_head bytesH hh
  have hcg := classify_of_get bytesG hg
  refine ⟨?_, ?_, ?_⟩
  · simp [handle_client, hch, hcg]
  · simp [handle_client, hch]
    exact success_response_eq N
  · simp [handle_client, hch]

/-- C6 witness: concrete HEAD and GET requests over a 3-byte file. -/
theorem c6_head_same_headers_no_body_witness :
    headPfx.isPrefixOf [72, 69, 65, 68, 32, 47] = true ∧
    getPfx.isPrefixOf [71, 69, 84, 32, 47] = true ∧
    ((handle_client (some [72, 69, 65, 68, 32, 47]) (some 3) []).response =
      (handle_client (some [71, 69, 84, 32, 47]) (some 3) []).response ∧
    (handle_client (some [72, 69, 65, 68, 32, 47]) (some 3) []).response =
      some (successWire 3) ∧
    (handle_client (some [72, 69, 65, 68, 32, 47]) (some 3) []).streamed = none) :=
  ⟨by decide, by decide,
    c6_head_same_headers_no_body [72, 69, 65, 68, 32, 47] [71, 69, 84, 32, 47] 3 [] []
      (by decide) (by decide)⟩

/-- C7: a non-empty initial read beginning with neither "GET " nor "HEAD "
is answered with the exact 405 message (Allow: GET, HEAD, Content-Type
text/plain, Content-Length 23, body "405 Method Not Allowed" and newline);
the streaming engine never runs and the file is never opened. -/
theorem c7_unsupported_gets_405 (bytes : List Nat) (fs : Option Nat)
    (tr : List SendResult)
    (_hne : bytes ≠ [])
    (hg : getPfx.isPrefixOf bytes = false)
    (hh : headPfx.isPrefixOf bytes = false) :
    (handle_client (some bytes) fs tr).response = some msg405 ∧
    msg405 =
      "HTTP/1.1 405 Method Not Allowed\r\nContent-Type: text/plain\r\nAllow: GET, HEAD\r\nContent-Length: 23\r\nConnection: close\r\n\r\n405 Method Not Allowed\n".data ∧
    (handle_client (some bytes) fs tr).streamed = none ∧
    (handle_client (some bytes) fs tr).openedFile = false := by
  have hc := classify_of_other bytes hg hh
  refine ⟨?_, by decide, ?_, ?_⟩ <;> simp [handle_client, hc]

/-- C7 witness: a concrete POST request line. -/
theorem c7_unsupported_gets_405_witness :
    ([80, 79, 83, 84, 32, 47] : List Nat) ≠ [] ∧
    getPfx.isPrefixOf [80, 79, 83, 84, 32, 47] = false ∧
    headPfx.isPrefixOf [80, 79, 83, 84, 32, 47] = false ∧
    ((handle_client (some [80, 79, 83, 84, 32, 47]) (some 9) []).response = some msg405 ∧
    msg405 =
      "HTTP/1.1 405 Method Not Allowed\r\nContent-Type: text/plain\r\nAllow: GET, HEAD\r\nContent-Length: 23\r\nConnection: close\r\n\r\n405 Method Not Allowed\n".data ∧
    (handle_client (some [80, 79, 83, 84, 32, 47]) (some 9) []).streamed = none ∧
    (handle_client (some [80, 79, 83, 84, 32, 47]) (some 9) []).openedFile = false) :=
  ⟨by decide, by decide, by decide,
    c7_unsupported_gets_405 [80, 79, 83, 84, 32, 47] (some 9) []
      (by decide) (by decide) (by decide)⟩

/-- C8 counterexample: the streaming loop is not total over all input
streams: an environment that reports a transient condition at every attempt
keeps one remaining byte forever, so no finite number of attempt results
makes the loop exit; this refutes termination for input streams where
transient conditions recur without bound and with no further progress. -/
theorem c8_counterexample :
    ¬ (∀ (env : Nat → SendResult) (off rem : Nat),
        (∀ m k, env m = SendResult.progress k → 1 ≤ k) →
        ∃ n, ((sfc (traceN env n) off rem).exited).isSome = true) := by
  intro hclaim
  obtain ⟨n, hn⟩ := hclaim (fun _ => SendResult.transient) 0 1
    (by intro m k hm; simp at hm)
  rw [traceN_all_transient _ n (fun i _ => rfl), sfc_all_transient_none n] at hn
  simp at hn

/-- C8 (amended): the loop exits only by remaining reaching zero, by peer
disconnect, or by a fatal transfer error, and it terminates on every input
stream in which non-transient results keep occurring; only a stream that
eventually answers transient forever makes it retry without bound. -/
theorem c8_stream_termination (env : Nat → SendResult) (off rem : Nat)
    (hfair : ∀ n, ∃ m, n ≤ m ∧ env m ≠ SendResult.transient)
    (hpos : ∀ m k, env m = SendResult.progress k → 1 ≤ k) :
    (∃ n, ((sfc (traceN env n) off rem).exited).isSome = true) ∧
    (∀ tr : List SendResult,
      ((sfc tr off rem).exited = some true →
        (sfc tr off rem).remaining = 0 ∨ SendResult.epipe ∈ tr) ∧
      ((sfc tr off rem).exited = some false → SendResult.fatal ∈ tr)) :=
  ⟨sfc_fair_terminates rem env off hfair hpos, fun tr => sfc_exit_reason tr off rem⟩

/-- C8 witness: an environment reporting immediate peer disconnect. -/
theorem c8_stream_termination_witness :
    (∃ n, ((sfc (traceN (fun _ => SendResult.epipe) n) 0 1).exited).isSome = true) ∧
    (∀ tr : List SendResult,
      ((sfc tr 0 1).exited = some true →
        (sfc tr 0 1).remaining = 0 ∨ SendResult.epipe ∈ tr) ∧
      ((sfc tr 0 1).exited = some false → SendResult.fatal ∈ tr)) :=
  c8_stream_termination (fun _ => SendResult.epipe) 0 1
    (fun n => ⟨n, Nat.le_refl n, by simp⟩)
    (fun m k hm => by simp at hm)

/-- C9: request classification depends only on the first five received
bytes: two non-empty received byte sequences agreeing on their first five
bytes (equivalently, agreeing entirely when shorter) are classified
identically, whatever the remaining readable bytes hold. -/
theorem c9_classification_first_five_bytes (b1 b2 : List Nat)
    (_h1 : b1 ≠ []) (_h2 : b2 ≠ []) (htake : b1.take 5 = b2.take 5) :
    classify_request b1 = classify_request b2 := by
  rw [classify_take5 b1, classify_take5 b2, htake]

/-- C9 witness: two GET requests differing after the fifth byte. -/
theorem c9_classification_first_five_bytes_witness :
    ([71, 69, 84, 32, 47, 97] : List Nat) ≠ [] ∧
    ([71, 69, 84, 32, 47, 98, 99] : List Nat) ≠ [] ∧
    ([71, 69, 84, 32, 47, 97] : List Nat).take 5 = ([71, 69, 84, 32, 47, 98, 99] : List Nat).take 5 ∧
    classify_request [71, 69, 84, 32, 47, 97] = classify_request [71, 69, 84, 32, 47, 98, 99] :=
  ⟨by decide, by decide, by decide,
    c9_classification_first_five_bytes [71, 69, 84, 32, 47, 97] [71, 69, 84, 32, 47, 98, 99]
      (by decide) (by decide) (by decide)⟩

/-- C10: a GET request against a zero-byte file is answered 200 OK with
Content-Length 0, the streaming loop exits immediately without issuing any
transfer request, and it reports success. -/
theorem c10_zero_size_get (bytes : List Nat) (tr : List SendResult)
    (h : getPfx.isPrefixOf bytes = true) :
    (handle_client (some bytes) (some 0) tr).response =
      some "HTTP/1.1 200 OK\r\nContent-Length: 0\r\nContent-Type: application/octet-stream\r\nConnection: close\r\n\r\n".data ∧
    (handle_client (some bytes) (some 0) tr).streamed =
      some ⟨some true, 0, 0, []⟩ := by
  have hc := classify_of_get bytes h
  have hmsg : send_http_response_msg 200 "OK".data (success_headers 0) [] =
      "HTTP/1.1 200 OK\r\nContent-Length: 0\r\nContent-Type: application/octet-stream\r\nConnection: close\r\n\r\n".data := by
    decide
  constructor
  · simp [handle_client, hc, hmsg]
  · simp [handle_client, hc, sfc_zero]

/-- C10 witness: a concrete GET with an adversarial trailing trace element
that the loop never consumes. -/
theorem c10_zero_size_get_witness :
    getPfx.isPrefixOf [71, 69, 84, 32, 47] = true ∧
    ((handle_client (some [71, 69, 84, 32, 47]) (some 0) [SendResult.fatal]).response =
      some "HTTP/1.1 200 OK\r\nContent-Length: 0\r\nContent-Type: application/octet-stream\r\nConnection: close\r\n\r\n".data ∧
    (handle_client (some [71, 69, 84, 32, 47]) (some 0) [SendResult.fatal]).streamed =
      some ⟨some true, 0, 0, []⟩) :=
  ⟨by decide,
    c10_zero_size_get [71, 69, 84, 32, 47] [SendResult.fatal] (by decide)⟩

end Streamix
